import Mathlib

/-!
Verification of the Unix crash-log handler (`src/os/unix/crashlog_unix.cpp`).

The C++ core is shallowly embedded as pure Lean functions.  Stateful,
effectful code (signal registration, console printing, `_exit`, `longjmp`,
assignments to the process-wide crash-log pointer and the
`try_execute_active` flag) is modelled by having each function return the
list of observable events it performs, in program order.  Signal sets
(`sigset_t`) are modelled as duplicate-free lists of signal numbers built
by `sigemptyset` / `sigaddset`, exactly as the C code builds them.
-/

namespace CrashlogUnix

/-! ## Signal numbers

Numeric values of the monitored signals (Linux values; the symbolic
names are what the code uses). -/

def SIGQUIT : Int := 3
def SIGILL : Int := 4
def SIGABRT : Int := 6
def SIGBUS : Int := 7
def SIGFPE : Int := 8
def SIGSEGV : Int := 11

/-- The signals we want our crash handler to handle
(`_signals_to_handle` in the source). -/
def signals_to_handle : List Int := [SIGSEGV, SIGABRT, SIGFPE, SIGBUS, SIGILL, SIGQUIT]

/-! ## Signal sets (`sigset_t`) -/

/-- An empty signal set, as produced by `sigemptyset`. -/
def sigemptyset : List Int := []

/-- Add a signal to a signal set (`sigaddset`); a `sigset_t` has set
semantics, so adding a member again changes nothing. -/
def sigaddset (set : List Int) (signum : Int) : List Int :=
  if signum ∈ set then set else set ++ [signum]

/-- The signal set both `SetSignals` and `TryExecute` build: start from
`sigemptyset` and `sigaddset` every signal of `signals_to_handle`. -/
def buildHandledSigset : List Int := signals_to_handle.foldl sigaddset sigemptyset

/-! ## Observable events -/

/-- The two handler entry points that can be registered with `sigaction`. -/
inductive HandlerId where
  | handleCrash
  | handleInternalCrash
  deriving DecidableEq, Repr

/-- Observable actions of the crash-handling code, in program order:
flag assignments, `setjmp`/`longjmp`, console output, signal-mask and
registration calls, collaborator calls, and process exit. -/
inductive Event where
  | setFlag (b : Bool)
  | setjmpEstablish
  | runStep
  | resumeAtCheckpoint
  | printDiag (sectionName : String)
  | sigUnblock (sigs : List Int)
  | installSignals (h : HandlerId)
  | checkEmergency
  | checkMissingNewGRFs
  | printNotice
  | allocReport (signum : Int)
  | setCurrent
  | makeCrashLog
  | afterCrashLogCleanup
  | exitProcess (code : Nat)
  | longjmpResume
  deriving DecidableEq, Repr

/-! ## The crash-log object -/

/-- The state of a `CrashLogUnix` object that the handlers read: the
signal that was thrown and whether we are inside a `TryExecute` block.
(The `jmp_buf` itself is opaque; jumping to it is the
`Event.longjmpResume` event.) -/
structure CrashLogUnix where
  signum : Int
  try_execute_active : Bool
  deriving DecidableEq, Repr

/-! ## Guarded execution (`CrashLogUnix::TryExecute`) -/

/-- What the guarded step (`func`) does when run: either it completes,
reporting a boolean, or it faults partway through, which delivers a
monitored signal to `HandleInternalCrash` and resumes at the `setjmp`
checkpoint. -/
inductive StepOutcome where
  | completes (res : Bool)
  | faults
  deriving DecidableEq, Repr

/-- Result of `TryExecute`: the returned boolean plus the event trace. -/
structure TryExecuteResult where
  retval : Bool
  events : List Event
  deriving DecidableEq, Repr

/-- Embedding of `CrashLogUnix::TryExecute(section_name, func)`:
set `try_execute_active`; establish the checkpoint with `setjmp`.
On normal (first) entry run `func`, clear the flag and return its result.
If execution resumes at the checkpoint (a fault happened inside `func`),
print the diagnostic naming the section, unblock the handled signal set
with `sigprocmask(SIG_UNBLOCK, ...)`, clear the flag and return false. -/
def TryExecute (section_name : String) (step : StepOutcome) : TryExecuteResult :=
  match step with
  | .completes res =>
      { retval := res
        events := [.setFlag true, .setjmpEstablish, .runStep, .setFlag false] }
  | .faults =>
      { retval := false
        events := [.setFlag true, .setjmpEstablish, .runStep, .resumeAtCheckpoint,
                   .printDiag section_name, .sigUnblock buildHandledSigset, .setFlag false] }

/-- Fold the `setFlag` assignments of a trace over an initial flag value:
the value of `try_execute_active` after the trace runs. -/
def flagAfter (init : Bool) (es : List Event) : Bool :=
  es.foldl (fun f e => match e with | .setFlag b => b | _ => f) init

/-- Recognizer for `setFlag` events. -/
def isSetFlagEvent : Event → Bool
  | .setFlag _ => true
  | _ => false

/-! ## Signal registration (`SetSignals`) -/

/-- The parts of a `struct sigaction` the code fills in: the handler,
the blocking mask, and the `SA_RESTART` flag. -/
structure Sigaction where
  sa_handler : HandlerId
  sa_mask : List Int
  sa_restart : Bool
  deriving DecidableEq, Repr

/-- Result of `SetSignals`: the `sigaction(signum, &sa, nullptr)`
registrations performed, in order, and the returned `sigset_t`. -/
structure SetSignalsResult where
  registrations : List (Int × Sigaction)
  ret : List Int
  deriving DecidableEq, Repr

/-- Embedding of `SetSignals(handler)`: build the signal set of all
handled signals once, fill a single `sigaction` with the handler, the
`SA_RESTART` flag and that set as blocking mask, register it for every
handled signal, and return the set. -/
def SetSignals (handler : HandlerId) : SetSignalsResult :=
  let sigs := signals_to_handle.foldl sigaddset sigemptyset
  let sa : Sigaction := { sa_handler := handler, sa_mask := sigs, sa_restart := true }
  { registrations := signals_to_handle.map (fun signum => (signum, sa))
    ret := sigs }

/-! ## Fault handlers -/

/-- Embedding of `HandleInternalCrash(signum)`: if there is no current
crash log, or there is one but `try_execute_active` is false, print the
fatal notice and `_exit(1)`; otherwise `longjmp` to the checkpoint. -/
def HandleInternalCrash (current : Option CrashLogUnix) : List Event :=
  if current.elim true (fun log => !log.try_execute_active) then
    [.printNotice, .exitProcess 1]
  else
    [.longjmpResume]

/-- Embedding of `HandleCrash(signum)`.  If a crash log already exists,
run `AfterCrashLogCleanup` and `_exit(2)`.  Otherwise install
`HandleInternalCrash` for the handled signals, unblock them, consult
`_gamelog.TestEmergency()` and then `SaveloadCrashWithMissingNewGRFs()`
(each positive answer prints a notice and calls `_exit(3)`), and
otherwise allocate the crash log, publish it as current, run
`MakeCrashLog`, run `AfterCrashLogCleanup` and `_exit(2)`. -/
def HandleCrash (current : Option CrashLogUnix) (signum : Int)
    (testEmergency missingNewGRFs : Bool) : List Event :=
  if current.isSome then
    [.afterCrashLogCleanup, .exitProcess 2]
  else
    [.installSignals .handleInternalCrash,
     .sigUnblock (SetSignals .handleInternalCrash).ret,
     .checkEmergency] ++
    (if testEmergency then
      [.printNotice, .exitProcess 3]
    else
      [.checkMissingNewGRFs] ++
      (if missingNewGRFs then
        [.printNotice, .exitProcess 3]
      else
        [.allocReport signum, .setCurrent, .makeCrashLog,
         .afterCrashLogCleanup, .exitProcess 2]))

/-- Recognizer for `exitProcess` events. -/
def isExitEvent : Event → Bool
  | .exitProcess _ => true
  | _ => false

/-- The process exit status used when a crash report was written
(fully or partially), `_exit(2)` in the source. -/
def exitStatusReportWritten : Nat := 2

/-- The process exit status used when report generation is skipped by a
pre-check, `_exit(3)` in the source. -/
def exitStatusReportSkipped : Nat := 3

/-- The process exit status used when the capture machinery itself
failed catastrophically, `_exit(1)` in the source. -/
def exitStatusCatastrophic : Nat := 1

/-! ## OS-fact producers -/

/-- The fields of `struct utsname` that `LogOSVersion` prints. -/
structure Utsname where
  sysname : String
  release : String
  version : String
  machine : String
  deriving DecidableEq, Repr

/-- Embedding of `CrashLogUnix::LogOSVersion`.  Its input is the outcome
of the `uname` call: `.error err` when `uname` returned a negative value
(with `err` the `strerror(errno)` text), `.ok name` on success.  Each
element of the returned list is one `fmt::format_to` append to the
output iterator. -/
def LogOSVersion (unameResult : Except String Utsname) : List String :=
  match unameResult with
  | .error err => ["Could not get OS version: " ++ err ++ "\n"]
  | .ok name =>
      ["Operating system:\n Name:     " ++ name.sysname ++
       "\n Release:  " ++ name.release ++
       "\n Version:  " ++ name.version ++
       "\n Machine:  " ++ name.machine ++ "\n"]

/-- Size of the `trace` buffer in `LogStacktrace` (`void *trace[64]`). -/
def lengthof_trace : Nat := 64

/-- Embedding of `backtrace(trace, lengthof(trace))` followed by
`backtrace_symbols`: of the symbolized frames of the call stack, at most
`lengthof_trace` are captured. -/
def backtrace (callstack : List String) : List String :=
  callstack.take lengthof_trace

/-- The two-digit `fmt` format spec the stacktrace loop uses on its
index: decimal digits, zero-padded on the left to width at least 2. -/
def fmt02 (i : Nat) : String :=
  if i < 10 then "0" ++ Nat.repr i else Nat.repr i

/-- The loop body of `LogStacktrace`: one formatted line per captured
frame, with the running index starting at `i`. -/
def stacktraceLinesFrom : Nat → List String → List String
  | _, [] => []
  | i, m :: ms => (" [" ++ fmt02 i ++ "] " ++ m ++ "\n") :: stacktraceLinesFrom (i + 1) ms

/-- Embedding of `CrashLogUnix::LogStacktrace`; `glibc` is whether the
platform provides `execinfo.h` (the `__GLIBC__` conditional), and
`callstack` is the symbolized call stack `backtrace` reads from.  Each
element of the returned list is one `fmt::format_to` append. -/
def LogStacktrace (glibc : Bool) (callstack : List String) : List String :=
  ["Stacktrace:\n"] ++
  (if glibc then stacktraceLinesFrom 0 (backtrace callstack) else [" Not supported.\n"]) ++
  ["\n"]

/-- Recognizer for `allocReport` events. -/
def isAllocEvent : Event → Bool
  | .allocReport _ => true
  | _ => false

/-! ## Helper lemmas -/

/-- The signal set built by `sigaddset`-ing every handled signal into an
empty set holds exactly the handled signals, in order. -/
theorem buildHandledSigset_eq : buildHandledSigset = signals_to_handle := by decide

/-! ## Claim theorems -/

/-- C1: `HandleInternalCrash` resumes at the saved checkpoint via
`longjmp`, and does not terminate, exactly when a current crash log
exists and its `try_execute_active` flag is true; otherwise it prints the
fatal notice and exits with the catastrophic status, never jumping. -/
theorem handleInternalCrash_contract (current : Option CrashLogUnix) :
    (if current.elim false (fun log => log.try_execute_active) then
      HandleInternalCrash current = [Event.longjmpResume]
    else
      HandleInternalCrash current =
        [Event.printNotice, Event.exitProcess exitStatusCatastrophic]) ∧
    (HandleInternalCrash current).contains Event.longjmpResume =
      current.elim false (fun log => log.try_execute_active) ∧
    ((HandleInternalCrash current).filter isExitEvent).isEmpty =
      current.elim false (fun log => log.try_execute_active) := by
  cases current with
  | none => exact ⟨rfl, rfl, rfl⟩
  | some log =>
      rcases log with ⟨s, f⟩
      cases f <;> exact ⟨rfl, rfl, rfl⟩

/-- C6: invoking `HandleCrash` while a crash log already exists runs
`AfterCrashLogCleanup` exactly once and exits with the report-written
status; nothing else happens (no re-registration, no pre-checks, no
second report). -/
theorem handleCrash_second_fault (log : CrashLogUnix) (signum : Int) (e m : Bool) :
    HandleCrash (some log) signum e m =
      [Event.afterCrashLogCleanup, Event.exitProcess exitStatusReportWritten] ∧
    (HandleCrash (some log) signum e m).count Event.afterCrashLogCleanup = 1 := by
  exact ⟨rfl, rfl⟩

/-- C3: the three contractual exit statuses are pairwise distinct, every
run of `HandleCrash` terminates with exactly one exit call whose code is
either the report-written or the report-skipped status, and every run of
`HandleInternalCrash` either exits once with the catastrophic status or
does not exit at all. -/
theorem exit_statuses_contract :
    ([exitStatusCatastrophic, exitStatusReportWritten, exitStatusReportSkipped] :
        List Nat).Nodup ∧
    (∀ (current : Option CrashLogUnix) (signum : Int) (e m : Bool),
      (HandleCrash current signum e m).filter isExitEvent =
          [Event.exitProcess exitStatusReportWritten] ∨
      (HandleCrash current signum e m).filter isExitEvent =
          [Event.exitProcess exitStatusReportSkipped]) ∧
    (∀ current : Option CrashLogUnix,
      (HandleInternalCrash current).filter isExitEvent =
          [Event.exitProcess exitStatusCatastrophic] ∨
      (HandleInternalCrash current).filter isExitEvent = []) := by
  refine ⟨by decide, ?_, ?_⟩
  · intro current signum e m
    cases current <;> cases e <;> cases m <;>
      first
      | exact Or.inl rfl
      | exact Or.inr rfl
  · intro current
    cases current with
    | none => exact Or.inl rfl
    | some log =>
        rcases log with ⟨s, f⟩
        cases f
        · exact Or.inl rfl
        · exact Or.inr rfl

/-- C4 counterexample: the pre-check-skip path terminates the process
(with the report-skipped status) without ever invoking
`AfterCrashLogCleanup`, refuting the claim that cleanup runs on every
termination path of the fault handlers. -/
theorem cleanup_claim_counterexample :
    Event.exitProcess exitStatusReportSkipped ∈ HandleCrash none 11 true false ∧
    (HandleCrash none 11 true false).contains Event.afterCrashLogCleanup = false := by
  decide

/-- C4 amended: `AfterCrashLogCleanup` runs exactly on the two
report-written termination paths of `HandleCrash` — immediately before
the report-written exit — and never on the pre-check-skip paths nor in
`HandleInternalCrash`. -/
theorem cleanup_on_report_written_paths (current : Option CrashLogUnix)
    (signum : Int) (e m : Bool) :
    (HandleCrash current signum e m).contains Event.afterCrashLogCleanup =
      (HandleCrash current signum e m).contains
        (Event.exitProcess exitStatusReportWritten) ∧
    (if (HandleCrash current signum e m).contains Event.afterCrashLogCleanup then
      ∃ p, HandleCrash current signum e m =
        p ++ [Event.afterCrashLogCleanup, Event.exitProcess exitStatusReportWritten]
    else True) ∧
    (∀ cur : Option CrashLogUnix,
      (HandleInternalCrash cur).contains Event.afterCrashLogCleanup = false) := by
  refine ⟨?_, ?_, ?_⟩
  · cases current <;> cases e <;> cases m <;> rfl
  · cases current with
    | some log => exact ⟨[], rfl⟩
    | none =>
        cases e with
        | true => exact trivial
        | false =>
            cases m with
            | true => exact trivial
            | false =>
                exact ⟨[Event.installSignals .handleInternalCrash,
                   Event.sigUnblock (SetSignals .handleInternalCrash).ret,
                   Event.checkEmergency, Event.checkMissingNewGRFs,
                   Event.allocReport signum, Event.setCurrent, Event.makeCrashLog], rfl⟩
  · intro cur
    cases cur with
    | none => rfl
    | some log =>
        rcases log with ⟨s, f⟩
        cases f <;> rfl

/-- C5: on a first fault, `HandleCrash` consults the emergency pre-check
first (right after re-registering the internal handler and unblocking
the handled signals) and the missing-NewGRFs pre-check second and only
if the first answered no; if either answers yes it prints a notice and
exits with the report-skipped status without allocating a crash log,
without publishing a current crash log, and without running report
composition. -/
theorem handleCrash_prechecks (signum : Int) (e m : Bool) :
    Event.checkEmergency ∈ HandleCrash none signum e m ∧
    (HandleCrash none signum e m).contains Event.checkMissingNewGRFs = !e ∧
    (HandleCrash none signum e m).take 3 =
      [Event.installSignals .handleInternalCrash,
       Event.sigUnblock (SetSignals .handleInternalCrash).ret,
       Event.checkEmergency] ∧
    (if e then (HandleCrash none signum e m).take 4 =
        [Event.installSignals .handleInternalCrash,
         Event.sigUnblock (SetSignals .handleInternalCrash).ret,
         Event.checkEmergency, Event.printNotice]
      else (HandleCrash none signum e m).take 4 =
        [Event.installSignals .handleInternalCrash,
         Event.sigUnblock (SetSignals .handleInternalCrash).ret,
         Event.checkEmergency, Event.checkMissingNewGRFs]) ∧
    (if e || m then
      Event.printNotice ∈ HandleCrash none signum e m ∧
      Event.exitProcess exitStatusReportSkipped ∈ HandleCrash none signum e m ∧
      (HandleCrash none signum e m).filter isAllocEvent = [] ∧
      (HandleCrash none signum e m).contains Event.setCurrent = false ∧
      (HandleCrash none signum e m).contains Event.makeCrashLog = false
    else True) := by
  cases e with
  | true =>
      exact ⟨.tail _ (.tail _ (.head _)), rfl, rfl, rfl,
        .tail _ (.tail _ (.tail _ (.head _))),
        .tail _ (.tail _ (.tail _ (.tail _ (.head _)))), rfl, rfl, rfl⟩
  | false =>
      cases m with
      | true =>
          exact ⟨.tail _ (.tail _ (.head _)), rfl, rfl, rfl,
            .tail _ (.tail _ (.tail _ (.tail _ (.head _)))),
            .tail _ (.tail _ (.tail _ (.tail _ (.tail _ (.head _))))), rfl, rfl, rfl⟩
      | false =>
          exact ⟨.tail _ (.tail _ (.head _)), rfl, rfl, rfl, trivial⟩

/-- C2: `TryExecute` always returns a boolean.  On normal entry it runs
the step, clears `try_execute_active`, and returns the result reported
by the step, never printing a diagnostic or touching the signal mask.  On
resume via the checkpoint it prints the diagnostic naming the failed
section, unblocks exactly the handled signal set, clears the flag, and
returns false. -/
theorem tryExecute_contract (section_name : String) (step : StepOutcome) :
    (match step with
     | .completes res =>
         (TryExecute section_name step).retval = res ∧
         (TryExecute section_name step).events.contains Event.resumeAtCheckpoint = false ∧
         (TryExecute section_name step).events.contains
            (Event.printDiag section_name) = false
     | .faults =>
         (TryExecute section_name step).retval = false ∧
         Event.printDiag section_name ∈ (TryExecute section_name step).events ∧
         Event.sigUnblock buildHandledSigset ∈ (TryExecute section_name step).events ∧
         buildHandledSigset = signals_to_handle) ∧
    flagAfter true (TryExecute section_name step).events = false := by
  cases step with
  | completes res => exact ⟨⟨rfl, rfl, rfl⟩, rfl⟩
  | faults =>
      exact ⟨⟨rfl, .tail _ (.tail _ (.tail _ (.tail _ (.head _)))),
        .tail _ (.tail _ (.tail _ (.tail _ (.tail _ (.head _))))),
        buildHandledSigset_eq⟩, rfl⟩

/-- C10: every run of `TryExecute` starts by setting
`try_execute_active` and ends by clearing it: the first event of its
trace sets the flag true, the last one sets it false, those are the only
flag assignments, and consequently whatever the flag held before, it is
false after the call returns. -/
theorem tryExecute_flag_invariant (section_name : String) (step : StepOutcome) :
    ((TryExecute section_name step).events.head? = some (Event.setFlag true)) ∧
    ((TryExecute section_name step).events.getLast? = some (Event.setFlag false)) ∧
    ((TryExecute section_name step).events.filter isSetFlagEvent =
      [Event.setFlag true, Event.setFlag false]) ∧
    (∀ init : Bool, flagAfter init (TryExecute section_name step).events = false) := by
  cases step with
  | completes res => exact ⟨rfl, rfl, rfl, fun init => rfl⟩
  | faults => exact ⟨rfl, rfl, rfl, fun init => rfl⟩

/-- C9: `SetSignals` registers the given handler for each handled signal
in order, uses the full handled-signal set as the blocking mask of every
registration together with `SA_RESTART`, and returns that exact set. -/
theorem setSignals_contract (h : HandlerId) :
    (SetSignals h).ret = signals_to_handle ∧
    (SetSignals h).registrations.map Prod.fst = signals_to_handle ∧
    (SetSignals h).registrations.map Prod.snd =
      List.replicate signals_to_handle.length
        { sa_handler := h, sa_mask := signals_to_handle, sa_restart := true } := by
  exact ⟨buildHandledSigset_eq, rfl, by rw [buildHandledSigset_eq.symm]; rfl⟩

/-- C8: `LogOSVersion` always appends exactly one fragment and never
fails: when `uname` fails it appends the single error line built from
the OS error text and nothing else; when `uname` succeeds it appends the
block carrying all four identifier fields. -/
theorem logOSVersion_contract (r : Except String Utsname) :
    (LogOSVersion r).length = 1 ∧
    (match r with
     | .error err => LogOSVersion r = ["Could not get OS version: " ++ err ++ "\n"]
     | .ok name => LogOSVersion r =
        ["Operating system:\n Name:     " ++ name.sysname ++
         "\n Release:  " ++ name.release ++
         "\n Version:  " ++ name.version ++
         "\n Machine:  " ++ name.machine ++ "\n"]) := by
  cases r with
  | error err => exact ⟨rfl, rfl⟩
  | ok name => exact ⟨rfl, rfl⟩

/-- The stacktrace loop emits one line per frame. -/
theorem stacktraceLinesFrom_length (j : Nat) (ms : List String) :
    (stacktraceLinesFrom j ms).length = ms.length := by
  induction ms generalizing j with
  | nil => rfl
  | cons m ms ih => simp [stacktraceLinesFrom, ih]

/-- The line at position `i` of the stacktrace loop output carries the
running index `j + i` and the frame at position `i`. -/
theorem stacktraceLinesFrom_getElem (ms : List String) (j i : Nat) :
    (stacktraceLinesFrom j ms)[i]? =
      (ms[i]?).map (fun m => " [" ++ fmt02 (j + i) ++ "] " ++ m ++ "\n") := by
  induction ms generalizing j i with
  | nil => simp [stacktraceLinesFrom]
  | cons m ms ih =>
      cases i with
      | zero => simp [stacktraceLinesFrom]
      | succ i =>
          simp only [stacktraceLinesFrom, List.getElem?_cons_succ]
          rw [ih (j + 1) i]
          have h : (j + 1) + i = j + (i + 1) := by omega
          rw [h]

/-- C7: on a glibc platform `LogStacktrace` emits the header, then one
line per captured frame — at most 64 frames, the line at position `i`
carrying the two-digit zero-padded index `i` — and a blank line;
elsewhere it emits the header, the single not-supported line, and a
blank line. -/
theorem logStacktrace_contract (callstack : List String) :
    LogStacktrace true callstack =
      "Stacktrace:\n" :: (stacktraceLinesFrom 0 (backtrace callstack) ++ ["\n"]) ∧
    (stacktraceLinesFrom 0 (backtrace callstack)).length = (backtrace callstack).length ∧
    (backtrace callstack).length ≤ 64 ∧
    (∀ i : Nat, (stacktraceLinesFrom 0 (backtrace callstack))[i]? =
      ((backtrace callstack)[i]?).map (fun m => " [" ++ fmt02 i ++ "] " ++ m ++ "\n")) ∧
    (∀ i : Fin 64, (fmt02 i.val).length = 2) ∧
    LogStacktrace false callstack = ["Stacktrace:\n", " Not supported.\n", "\n"] := by
  refine ⟨rfl, stacktraceLinesFrom_length 0 _, ?_, ?_, ?_, rfl⟩
  · simp only [backtrace, lengthof_trace, List.length_take]
    omega
  · intro i
    have h := stacktraceLinesFrom_getElem (backtrace callstack) 0 i
    simpa using h
  · decide

end CrashlogUnix
